import Mathlib

/-!
# DentalFlow API — verification of the data-consistency and mutation layer

A shallow embedding of the core mutation logic of the dental-clinic REST
backend: identifier parsing (`lib/mongo.js`), role consistency resolution and
catalog seeding (`lib/roles.js`), appointment total computation (the citas
router), the blank-then-compact nested-array mutator (`routes/historias.js`,
`routes/ordenes_laboratorio.js`), and the referential-integrity delete gates
(`routes/roles.js`, `routes/procedimientos.js`).

Numbers are modelled as `Int`, dates as integer timestamps, MongoDB documents
as Lean structures, collections as lists of documents (a `findOne` is the
first match), and JS objects with dynamic fields as insertion-ordered
association lists of string keys.
-/

namespace DentalFlow

/-- Hexadecimal digit test, the `[0-9a-fA-F]` character class. -/
def hexDigit (c : Char) : Bool :=
  c.isDigit || ('a' ≤ c && c ≤ 'f') || ('A' ≤ c && c ≤ 'F')

/-- The `/^[0-9a-fA-F]{24}$/` test used for ObjectId-shaped strings. -/
def isHex24 (s : String) : Bool :=
  s.data.length == 24 && s.data.all hexDigit

/-- JS `String.prototype.trim`: strip leading and trailing whitespace. -/
def jsTrim (s : String) : String :=
  ⟨((s.data.dropWhile Char.isWhitespace).reverse.dropWhile Char.isWhitespace).reverse⟩

/-- ASCII lower-casing of one character (enough for hex identifiers and the
flag tokens this code lower-cases). -/
def lowerChar (c : Char) : Char :=
  if 'A' ≤ c && c ≤ 'Z' then Char.ofNat (c.toNat + 32) else c

/-- JS `String.prototype.toLowerCase` on the ASCII fragment this code uses. -/
def jsToLower (s : String) : String :=
  ⟨s.data.map lowerChar⟩

/-- A JavaScript runtime value, as far as the identifier and role logic
inspects one. `joid` is an already-constructed ObjectId handle, carried as its
canonical (lower-case) 24-hex payload; `jobj` is any other object, opaque. -/
inductive JsVal where
  | jstr (s : String)
  | jnum (n : Int)
  | jbool (b : Bool)
  | jnull
  | jundefined
  | joid (hex : String)
  | jobj (tag : Nat)
deriving DecidableEq, Repr

/-- JS truthiness for the values above (`0`, `""`, `null`, `undefined` and
`false` are falsy; objects and ObjectId handles are truthy). -/
def truthy : JsVal → Bool
  | .jstr s => s != ""
  | .jnum n => n != 0
  | .jbool b => b
  | .jnull => false
  | .jundefined => false
  | .joid _ => true
  | .jobj _ => true

/-- Modelled from the spec: the `bson` `ObjectId` constructor is an external
dependency pinned by the repository's `package.json`, which is not under
`src/`. Per the spec's identifier-resolution contract (§4.1), an arbitrary
value is interpreted as a generated identifier exactly when it is in the
fixed-length 24-character hexadecimal form (an already-constructed handle
passes through, and the canonical stored form is lower-case hex); every other
input is a parse failure, raised as an exception to the caller. -/
def objectIdCtor : JsVal → Except String String
  | .jstr s => if isHex24 s then .ok (jsToLower s) else .error "invalid ObjectId"
  | .joid hex => .ok hex
  | _ => .error "invalid ObjectId"

/-- `oidMaybe` from `lib/mongo.js`:
`try { return new ObjectId(id); } catch { return null; }`. -/
def oidMaybe (v : JsVal) : Option String :=
  match objectIdCtor v with
  | .ok o => some o
  | .error _ => none

/-- `parseOid` from `lib/roles.js` (the helper inside `normalizeRole`): a
string is handed to the `ObjectId` constructor under `try`, an existing handle
passes through unchanged, and any other value yields `null`; a constructor
exception also yields `null`. -/
def parseOid : JsVal → Option String
  | .jstr s =>
    (match objectIdCtor (.jstr s) with
     | .ok o => some o
     | .error _ => none)
  | .joid hex => some hex
  | _ => none

/-- Spec-side characterization of the accepted inputs: those that "parse as a
generated identifier in the fixed-length (24-character) hexadecimal form" — a
24-hex string or an already-constructed handle. -/
def parsesAsGeneratedId : JsVal → Bool
  | .jstr s => isHex24 s
  | .joid _ => true
  | _ => false

/-! ## JS objects with dynamic fields -/

/-- A JS object: insertion-ordered string-keyed fields. -/
abbrev Obj := List (String × JsVal)

/-- Property read `o[k]`: the value at the first matching key; an absent key
reads as `undefined`, modelled by `none`. -/
def oget : Obj → String → Option JsVal
  | [], _ => none
  | kv :: rest, k => if kv.fst == k then some kv.snd else oget rest k

/-- Property read producing the JS value (`undefined` for an absent key). -/
def ogetV (o : Obj) (k : String) : JsVal :=
  (oget o k).getD .jundefined

/-- Property write `o[k] = v`: replace the value at an existing key in place,
else add the key at the end. -/
def oset : Obj → String → JsVal → Obj
  | [], k, v => [(k, v)]
  | kv :: rest, k, v =>
    if kv.fst == k then (k, v) :: oset rest k v else kv :: oset rest k v

theorem oget_oset_same (o : Obj) (k : String) (v : JsVal) :
    oget (oset o k v) k = some v := by
  induction o with
  | nil => simp [oset, oget]
  | cons kv rest ih =>
    by_cases h : kv.fst == k
    · simp [oset, oget, h, ih]
    · simp [oset, oget, h, ih]

theorem oget_oset_other (o : Obj) (k k2 : String) (v : JsVal) (h : k2 ≠ k) :
    oget (oset o k v) k2 = oget o k2 := by
  induction o with
  | nil =>
    have : ¬(k == k2) := by simpa using fun hc => h hc.symm
    simp [oset, oget, this]
  | cons kv rest ih =>
    by_cases hk : kv.fst == k
    · have hk2 : ¬(kv.fst == k2) := by
        have : kv.fst = k := by simpa using hk
        simpa [this] using fun hc => h hc.symm
      have hkk2 : ¬(k == k2) := by simpa using fun hc => h hc.symm
      simp [oset, oget, hk, hk2, hkk2, ih]
    · simp only [oset, if_neg hk, oget]
      by_cases hv : kv.fst == k2
      · simp [hv]
      · simp [hv, ih]

theorem oget_of_truthy (p : Obj) (k : String) (h : truthy (ogetV p k) = true) :
    oget p k = some (ogetV p k) := by
  unfold ogetV at *
  cases hk : oget p k with
  | none => rw [hk] at h; simp [truthy] at h
  | some v => simp [hk]

/-! ## Role catalog and `normalizeRole` (`lib/roles.js`) -/

/-- A document of the `roles` collection, as the resolver and the delete gate
read it (`oid` is the canonical hex of `_id`). -/
structure RoleDoc where
  oid : String
  nombre : String
  descripcion : String
  permisos : List String
deriving DecidableEq, Repr

/-- `ROLE_NAMES` from `lib/roles.js` — the closed catalog enumeration. -/
def ROLE_NAMES : List String :=
  ["Administrador", "Odontologo", "Asistente", "Laboratorista"]

/-- `findOne({_id: rid})` on the `roles` collection. -/
def findRoleById (db : List RoleDoc) (rid : String) : Option RoleDoc :=
  db.find? (fun r => r.oid == rid)

/-- `findOne({nombre})` on the `roles` collection. -/
def findRoleByName (db : List RoleDoc) (nombre : String) : Option RoleDoc :=
  db.find? (fun r => r.nombre == nombre)

/-- The name-lookup fallback shared verbatim by the `rol`-only branch and the
both-present branch of `normalizeRole`:
`if (ROLE_NAMES.includes(out.rol)) { const r = await ...findOne({nombre: out.rol}); if (r?._id) out.rol_id = r._id; } return out;`
(a non-string `out.rol` is never in `ROLE_NAMES`). -/
def fillRolIdByName (db : List RoleDoc) (out : Obj) : Obj :=
  match ogetV out "rol" with
  | .jstr s =>
    if ROLE_NAMES.contains s then
      match findRoleByName db s with
      | some r => oset out "rol_id" (.joid r.oid)
      | none => out
    else out
  | _ => out

/-- `normalizeRole` from `lib/roles.js`, with the role catalog passed in place
of the `db` handle. The JS starts from a spread copy of the payload; here the
payload is immutable, so the copy is the payload itself. -/
def normalizeRole (db : List RoleDoc) (p : Obj) : Obj :=
  if truthy (ogetV p "rol_id") && !truthy (ogetV p "rol") then
    match parseOid (ogetV p "rol_id") with
    | some rid =>
      match findRoleById db rid with
      | some r => if r.nombre != "" then oset p "rol" (.jstr r.nombre) else p
      | none => p
    | none => p
  else if truthy (ogetV p "rol") && !truthy (ogetV p "rol_id") then
    fillRolIdByName db p
  else if truthy (ogetV p "rol") && truthy (ogetV p "rol_id") then
    match parseOid (ogetV p "rol_id") with
    | some rid =>
      match findRoleById db rid with
      | some rById =>
        if rById.nombre != "" && (JsVal.jstr rById.nombre != ogetV p "rol") then
          oset p "rol" (.jstr rById.nombre)
        else p
      | none => fillRolIdByName db p
    | none => fillRolIdByName db p
  else p

/-- Resolution of the identifier field against the catalog: parse the value as
an ObjectId, then look it up. -/
def resolveById (db : List RoleDoc) (v : JsVal) : Option RoleDoc :=
  (parseOid v).bind (fun rid => findRoleById db rid)

/-- Resolution of the name field: a string inside the closed enumeration that
looks up in the catalog. -/
def resolveByName (db : List RoleDoc) (v : JsVal) : Option RoleDoc :=
  match v with
  | .jstr s => if ROLE_NAMES.contains s then findRoleByName db s else none
  | _ => none

theorem normalizeRole_both (db : List RoleDoc) (p : Obj)
    (hrol : truthy (ogetV p "rol") = true)
    (hrid : truthy (ogetV p "rol_id") = true) :
    normalizeRole db p =
      match resolveById db (ogetV p "rol_id") with
      | some rById =>
        if rById.nombre != "" && (JsVal.jstr rById.nombre != ogetV p "rol") then
          oset p "rol" (.jstr rById.nombre)
        else p
      | none => fillRolIdByName db p := by
  unfold normalizeRole resolveById
  simp only [hrol, hrid, Bool.not_true, Bool.and_false, Bool.false_and,
    Bool.and_self, if_false, if_true, Bool.true_and]
  cases hpo : parseOid (ogetV p "rol_id") with
  | none => simp
  | some rid => simp [Option.bind]

/-! ## Catalog seeding (`ensureRolesSeed`, `lib/roles.js`) -/

/-- The per-name seed description table inside `ensureRolesSeed`. -/
def seedDescripcion (nombre : String) : String :=
  if nombre == "Administrador" then "Gestión del sistema"
  else if nombre == "Odontologo" then "Atención clínica"
  else if nombre == "Asistente" then "Apoyo a operación"
  else "Laboratorio"

/-- A `roles` document as built by the seed (`_id` generation elided). -/
structure RolSeed where
  nombre : String
  descripcion : String
  permisos : List String
deriving DecidableEq, Repr

/-- `ensureRolesSeed` from `lib/roles.js`: count the collection; if it is
non-empty, return without inserting; otherwise `insertMany` one document per
`ROLE_NAMES` entry with its fixed description and an empty permission list. -/
def ensureRolesSeed (col : List RolSeed) : List RolSeed :=
  if col.length > 0 then col
  else col ++ ROLE_NAMES.map (fun nombre =>
    { nombre := nombre, descripcion := seedDescripcion nombre, permisos := [] })

/-! ## Appointments: `normalizeProcs`, `computeTotal`, `POST /api/citas` -/

/-- A line item as consumed by `normalizeProcs` (`cantidad` may be absent, in
which case it defaults to 1). -/
structure ProcRawIn where
  nombre : String
  costo_unitario : Int
  cantidad : Option Int
deriving DecidableEq, Repr

/-- A stored appointment line item. `normalizeProcs` builds items carrying
only `nombre`, `costo_unitario` and `cantidad`; legacy documents may also
carry a `procedimiento_id` reference, which the procedure-type delete gate
counts. -/
structure ProcDoc where
  procedimiento_id : Option String
  nombre : String
  costo_unitario : Int
  cantidad : Int
deriving DecidableEq, Repr

/-- `normalizeProcs` from the citas router: map each item to a trimmed name,
its numeric cost and a quantity defaulted to 1, then drop items with an empty
name, a negative cost or a quantity below 1. -/
def normalizeProcs (arr : List ProcRawIn) : List ProcDoc :=
  (arr.map (fun p =>
    ({ procedimiento_id := none
       nombre := jsTrim p.nombre
       costo_unitario := p.costo_unitario
       cantidad := p.cantidad.getD 1 } : ProcDoc))).filter
    (fun p => p.nombre != "" && decide (0 ≤ p.costo_unitario) && decide (1 ≤ p.cantidad))

/-- `computeTotal` from the citas router:
`(procs || []).reduce((acc, p) => acc + p.costo_unitario * (p.cantidad ?? 1), 0)`. -/
def computeTotal (procs : List ProcDoc) : Int :=
  procs.foldl (fun acc p => acc + p.costo_unitario * p.cantidad) 0

/-- A stored `citas` document (the fields the POST handler writes; timestamps
elided). -/
structure CitaDoc where
  fecha : Int
  paciente_id : String
  usuario_id : String
  estado : String
  motivo : Option String
  procedimientos : List ProcDoc
  total : Int
deriving DecidableEq, Repr

/-- The `ESTADOS` enumeration of the citas router. -/
def ESTADOS : List String := ["Pendiente", "Confirmada", "Cancelada", "Completada"]

/-- The request body of `POST /api/citas` after JSON decoding (`fecha` stands
for an already-valid date). -/
structure CitaCreateBody where
  fecha : Int
  paciente_id : String
  usuario_id : String
  estado : Option String
  motivo : Option String
  procedimientos : Option (List ProcRawIn)
  total : Option Int
deriving DecidableEq, Repr

/-- The Zod `Proc` item checks: nonempty name, nonnegative cost, quantity at
least 1 after its default. -/
def procRawValid (p : ProcRawIn) : Bool :=
  p.nombre != "" && decide (0 ≤ p.costo_unitario) && decide (1 ≤ p.cantidad.getD 1)

/-- The `CitaCreate` Zod checks relevant to the POST handler. -/
def citaCreateValid (b : CitaCreateBody) : Bool :=
  b.paciente_id != "" && isHex24 b.usuario_id &&
  (match b.estado with | some e => ESTADOS.contains e | none => true) &&
  (match b.procedimientos with | some l => l.all procRawValid | none => true) &&
  (match b.total with | some t => decide (0 ≤ t) | none => true)

/-- The Zod field `total: z.preprocess(asNumber, z.number().nonnegative()).optional().default(0)`:
an absent `total` parses to `0`, so the parsed field is never
`undefined`/`null`. -/
def citaCreateParseTotal (t : Option Int) : Option Int :=
  some (t.getD 0)

/-- The `POST /api/citas` handler after a successful parse: build the document
to insert; `none` models the 400 path when validation fails. The stored total
is `parsed.total ?? totalCalc`. -/
def citasPost (b : CitaCreateBody) : Option CitaDoc :=
  if citaCreateValid b then
    let parsedTotal := citaCreateParseTotal b.total
    let procs := normalizeProcs (b.procedimientos.getD [])
    let totalCalc := computeTotal procs
    some
      { fecha := b.fecha
        paciente_id := jsTrim b.paciente_id
        usuario_id := jsToLower (jsTrim b.usuario_id)
        estado := b.estado.getD "Pendiente"
        motivo := match b.motivo with
          | some m => if jsTrim m != "" then some (jsTrim m) else none
          | none => none
        procedimientos := procs
        total := parsedTotal.getD totalCalc }
  else none

/-! ## The blank-then-compact array mutator -/

/-- Step (a) of the delete protocol: `$unset` of `field.i` blanks position `i`
to `null`; beyond the current length it touches nothing (MongoDB `$unset`
never extends an array). -/
def unsetAt {α : Type} (xs : List (Option α)) (i : Nat) : List (Option α) :=
  xs.set i none

/-- Step (b): `$pull: {field: null}` removes every `null` element. -/
def pullNones {α : Type} (xs : List (Option α)) : List (Option α) :=
  xs.filter (fun x => x.isSome)

/-- The two-phase blank-then-compact delete used by both array routes. -/
def deleteAtIndex {α : Type} (xs : List (Option α)) (i : Nat) : List (Option α) :=
  pullNones (unsetAt xs i)

theorem pullNones_of_all_isSome {α : Type} (xs : List (Option α))
    (h : ∀ x ∈ xs, x.isSome) : pullNones xs = xs := by
  induction xs with
  | nil => rfl
  | cons a t ih =>
    have ha : a.isSome := h a (by simp)
    have ht : ∀ x ∈ t, x.isSome := fun x hx => h x (by simp [hx])
    simp [pullNones, List.filter_cons, ha]
    simpa [pullNones] using ih ht

theorem set_of_length_le {α : Type} (xs : List α) (i : Nat) (v : α)
    (h : xs.length ≤ i) : xs.set i v = xs := by
  induction xs generalizing i with
  | nil => rfl
  | cons a t ih =>
    cases i with
    | zero => simp at h
    | succ n =>
      simp only [List.set]
      rw [ih n (by simpa using h)]

theorem deleteAtIndex_eq_eraseIdx {α : Type} (xs : List (Option α)) (i : Nat)
    (h : ∀ x ∈ xs, x.isSome) (hi : i < xs.length) :
    deleteAtIndex xs i = xs.eraseIdx i := by
  induction xs generalizing i with
  | nil => simp at hi
  | cons a t ih =>
    have ht : ∀ x ∈ t, x.isSome := fun x hx => h x (by simp [hx])
    cases i with
    | zero =>
      simp only [deleteAtIndex, unsetAt, pullNones, List.set, List.eraseIdx,
        List.filter_cons, Option.isSome_none, Bool.false_eq_true, if_false]
      simpa [pullNones] using pullNones_of_all_isSome t ht
    | succ n =>
      have ha : a.isSome := h a (by simp)
      have hn : n < t.length := by simpa using hi
      simp only [deleteAtIndex, unsetAt, pullNones, List.set, List.eraseIdx,
        List.filter_cons, ha, if_true]
      have := ih n ht hn
      simpa [deleteAtIndex, unsetAt, pullNones] using this

theorem length_eraseIdx_of_lt {α : Type} (xs : List α) (i : Nat)
    (hi : i < xs.length) : (xs.eraseIdx i).length = xs.length - 1 := by
  induction xs generalizing i with
  | nil => simp at hi
  | cons a t ih =>
    cases i with
    | zero => simp [List.eraseIdx]
    | succ n =>
      have hn : n < t.length := by simpa using hi
      simp only [List.eraseIdx, List.length_cons, ih n hn]
      omega

theorem mem_of_mem_eraseIdx {α : Type} {xs : List α} {i : Nat} {x : α}
    (h : x ∈ xs.eraseIdx i) : x ∈ xs := by
  induction xs generalizing i with
  | nil => simp [List.eraseIdx] at h
  | cons a t ih =>
    cases i with
    | zero =>
      simp only [List.eraseIdx] at h
      exact List.mem_cons_of_mem _ h
    | succ n =>
      simp only [List.eraseIdx] at h
      rcases List.mem_cons.mp h with h | h
      · simp [h]
      · exact List.mem_cons_of_mem _ (ih h)

theorem getD_isSome_of_lt {α : Type} (xs : List (Option α)) (i : Nat)
    (h : ∀ x ∈ xs, x.isSome) (hi : i < xs.length) :
    ∃ a, xs.getD i none = some a := by
  have hmem : xs.get ⟨i, hi⟩ ∈ xs := xs.get_mem i hi
  have hsome := h _ hmem
  rcases Option.isSome_iff_exists.mp hsome with ⟨a, ha⟩
  refine ⟨a, ?_⟩
  rw [List.getD_eq_getElem?_getD, List.getElem?_eq_getElem hi]
  simpa using ha

theorem getD_none_of_le {α : Type} (xs : List (Option α)) (i : Nat)
    (hi : xs.length ≤ i) : xs.getD i none = none := by
  rw [List.getD_eq_getElem?_getD, List.getElem?_eq_none hi]
  rfl

/-! ## Clinical histories (`routes/historias.js`) -/

/-- A performed-procedure entry of a clinical history. -/
structure ProcRealDoc where
  tratamiento : String
  fecha : Int
  odontologo : Option String
  resultado : Option String
deriving DecidableEq, Repr

/-- A clinical-history document (one per patient). Array slots are `Option`
so a stored `null` placeholder is representable. -/
structure HistoriaDoc where
  paciente_id : String
  procedimientos_realizados : List (Option ProcRealDoc)
deriving DecidableEq, Repr

/-- A response of an array-mutating route: `ok` with its payload flag, or an
error status with its message. -/
inductive RouteResp where
  | ok (flag : Bool)
  | err (status : Nat) (msg : String)
deriving DecidableEq, Repr

/-- The `ProcPatch` body: every field optional, validated when present. -/
structure ProcPatchBody where
  tratamiento : Option String
  fecha : Option Int
  odontologo : Option String
  resultado : Option String
deriving DecidableEq, Repr

/-- `PATCH /api/historias/:paciente_id/procedimientos/:index` on a found
history (the route first rejects non-numeric or negative indices with 400 and
a missing history with 404, before this point): read the current element, 404
"Índice fuera de rango" when the slot is missing or `null`, shallow-merge the
supplied fields over it, re-validate the merged item (`ProcRealizado.parse`,
a failure is the 400 path with no write), then write the slot back. -/
def historiasPatchIndex (h : HistoriaDoc) (idx : Nat) (p : ProcPatchBody) :
    HistoriaDoc × RouteResp :=
  match h.procedimientos_realizados.getD idx none with
  | none => (h, .err 404 "Índice fuera de rango")
  | some curr =>
    let merged : ProcRealDoc :=
      { tratamiento := p.tratamiento.getD curr.tratamiento
        fecha := p.fecha.getD curr.fecha
        odontologo := match p.odontologo with
          | some o => some o
          | none => curr.odontologo
        resultado := match p.resultado with
          | some r => some r
          | none => curr.resultado }
    if merged.tratamiento != "" then
      ({ h with procedimientos_realizados :=
          h.procedimientos_realizados.set idx (some merged) }, .ok true)
    else (h, .err 400 "ValidationError")

/-- `DELETE /api/historias/:paciente_id/procedimientos/:index` on a found
history: look up the current element (404 "Índice fuera de rango" when the
slot is missing or `null`, before any write), then `$unset` the slot and
`$pull` the `null`s; the second update always modifies (it also bumps
`updatedAt`), so the answer is ok. -/
def historiasDeleteIndex (h : HistoriaDoc) (idx : Nat) : HistoriaDoc × RouteResp :=
  match h.procedimientos_realizados.getD idx none with
  | none => (h, .err 404 "Índice fuera de rango")
  | some _ =>
    ({ h with procedimientos_realizados :=
        deleteAtIndex h.procedimientos_realizados idx }, .ok true)

/-! ## Laboratory orders (`routes/ordenes_laboratorio.js`) -/

/-- Normalized `observaciones`: `null` or a structured object. -/
inductive ObsVal where
  | onull
  | notas (s : String)
  | items (tag : Nat)
  | obj (tag : Nat)
  | valor (tag : Nat)
deriving DecidableEq, Repr

/-- Incoming `observaciones` (`z.any()`): a string, an array, an object,
`null`/`undefined`, or any other primitive. -/
inductive ObsIn where
  | istr (s : String)
  | iarr (tag : Nat)
  | iobj (tag : Nat)
  | inull
  | iother (tag : Nat)
deriving DecidableEq, Repr

/-- `normalizeObservaciones` from the lab-orders router: `null` stays `null`,
a string becomes `{notas}`, an array `{items}`, an object passes through, and
anything else becomes `{valor}`. -/
def normalizeObservaciones : ObsIn → ObsVal
  | .inull => .onull
  | .istr s => .notas (jsTrim s)
  | .iarr t => .items t
  | .iobj t => .obj t
  | .iother t => .valor t

/-- A stored lab-order product. `especificaciones` is a string or `null` —
the create/replace/append paths store `p.especificaciones?.trim() ?? null`. -/
structure ProductoDoc where
  tipo_producto : String
  especificaciones : Option String
  cantidad : Int
deriving DecidableEq, Repr

/-- The partial item of a `producto_patch` operation (`ProductoParcial`). -/
structure ProductoParcial where
  tipo_producto : Option String
  especificaciones : Option String
  cantidad : Option Int
deriving DecidableEq, Repr

/-- A lab-order document (the fields the patch branches touch). Array slots
are `Option` so a `null` placeholder is representable. -/
structure OrdenLabDoc where
  estado : String
  observaciones : ObsVal
  productos : List (Option ProductoDoc)
deriving DecidableEq, Repr

/-- The `estado`/`observaciones` piggyback fields each patch branch may also
apply in its `$set`. -/
structure PatchExtras where
  estado : Option String
  observaciones : Option ObsIn
deriving DecidableEq, Repr

/-- `...(patch.estado ? {estado} : {})` and
`...(patch.observaciones !== undefined ? {observaciones: normalize(...)} : {})`. -/
def applyEstadoObs (d : OrdenLabDoc) (x : PatchExtras) : OrdenLabDoc :=
  let d1 := match x.estado with
    | some e => { d with estado := e }
    | none => d
  match x.observaciones with
  | some v => { d1 with observaciones := normalizeObservaciones v }
  | none => d1

/-- The Zod `Producto` re-validation of a merged item: nonempty product type
and positive integer quantity; and because a stored `especificaciones` of
`null` is spread into the merged object while `z.string().optional()` rejects
`null`, the merged `especificaciones` must be an actual string. -/
def productoParseOk (m : ProductoDoc) : Bool :=
  m.tipo_producto != "" && decide (1 ≤ m.cantidad) && m.especificaciones.isSome

/-- The `producto_patch` branch of `PATCH /api/ordenes-laboratorio/:id` on a
found order (a missing order is the 404 path before this point): read the
current element, 404 "Índice fuera de rango" when the slot is missing or
`null`, shallow-merge the supplied fields (trimming strings), re-validate with
`Producto.parse` (a throw is the 400 path with no write), then write the slot
back together with any piggyback fields. -/
def ordenProductoPatch (d : OrdenLabDoc) (idx : Nat) (item : ProductoParcial)
    (x : PatchExtras) : OrdenLabDoc × RouteResp :=
  match d.productos.getD idx none with
  | none => (d, .err 404 "Índice fuera de rango")
  | some curr =>
    let merged : ProductoDoc :=
      { tipo_producto := match item.tipo_producto with
          | some t => jsTrim t
          | none => curr.tipo_producto
        especificaciones := match item.especificaciones with
          | some s => some (jsTrim s)
          | none => curr.especificaciones
        cantidad := item.cantidad.getD curr.cantidad }
    if productoParseOk merged then
      (applyEstadoObs { d with productos := d.productos.set idx (some merged) } x,
        .ok true)
    else (d, .err 400 "ValidationError")

/-- The `producto_delete_index` branch on a found order: no element lookup —
`$unset` the slot (a no-op at or beyond the current length), then `$pull` the
`null`s together with any piggyback fields, always answering ok (the second
update also bumps `updatedAt`, so it always modifies). -/
def ordenProductoDeleteIndex (d : OrdenLabDoc) (idx : Nat) (x : PatchExtras) :
    OrdenLabDoc × RouteResp :=
  let d1 := { d with productos := unsetAt d.productos idx }
  (applyEstadoObs { d1 with productos := pullNones d1.productos } x, .ok true)

theorem applyEstadoObs_productos (d : OrdenLabDoc) (x : PatchExtras) :
    (applyEstadoObs d x).productos = d.productos := by
  unfold applyEstadoObs
  cases x.estado <;> cases x.observaciones <;> rfl

/-! ## Role delete gate (`routes/roles.js`) -/

/-- A `usuarios` document as read by the role delete gate: the denormalized
`rol` name and the `rol_id` reference, each possibly absent. -/
structure UsuarioDoc where
  rol : Option String
  rol_id : Option String
deriving DecidableEq, Repr

/-- The slice of the store the role delete touches. -/
structure RolesState where
  roles : List RoleDoc
  usuarios : List UsuarioDoc
deriving DecidableEq, Repr

inductive RoleDelResp where
  | badId
  | notFound
  | conflict (byId byString : Nat)
  | deleted (count : Nat)
deriving DecidableEq, Repr

/-- Users referencing a role in either stored form: by the `rol_id`
identifier or by the denormalized `rol` name. -/
def referencingUsers (us : List UsuarioDoc) (oid nombre : String) : Nat :=
  us.countP (fun u => u.rol_id == some oid || u.rol == some nombre)

/-- `DELETE /api/roles/:id`: parse the id (400), find the role (404), count
users referencing by `rol_id` and by `rol` name; when the sum is positive,
answer 409 with both counts in `inUseBy` and delete nothing; otherwise delete
the role. The request query (`_query`) is received but never read — no force
override exists on this route. -/
def rolesDelete (st : RolesState) (id : JsVal) (_query : List (String × String)) :
    RolesState × RoleDelResp :=
  match oidMaybe id with
  | none => (st, .badId)
  | some oid =>
    match st.roles.find? (fun r => r.oid == oid) with
    | none => (st, .notFound)
    | some role =>
      let byId := st.usuarios.countP (fun u => u.rol_id == some oid)
      let byString := st.usuarios.countP (fun u => u.rol == some role.nombre)
      if decide (0 < byId + byString) then (st, .conflict byId byString)
      else ({ st with roles := st.roles.eraseP (fun r => r.oid == oid) }, .deleted 1)

theorem countP_or_add_countP_and {α : Type} (l : List α) (p q : α → Bool) :
    l.countP (fun a => p a || q a) + l.countP (fun a => p a && q a) =
      l.countP p + l.countP q := by
  induction l with
  | nil => simp
  | cons a t ih =>
    by_cases hp : p a <;> by_cases hq : q a <;>
      simp [List.countP_cons, hp, hq] <;> omega

/-! ## Procedure-type delete gate (`routes/procedimientos.js`) -/

/-- A `procedimientos` (procedure-type) document. -/
structure ProcTypeDoc where
  oid : String
  tipo_procedimiento : String
  costo : Int
  activo : Bool
deriving DecidableEq, Repr

/-- The slice of the store the procedure-type delete touches. -/
structure ProcTypesState where
  procedimientos : List ProcTypeDoc
  citas : List CitaDoc
deriving DecidableEq, Repr

inductive ProcDelResp where
  | badId
  | notFound
  | conflictRefs (refs : Nat)
  | deleted (count : Nat)
deriving DecidableEq, Repr

/-- `parseBool` from the routers: trim and lower-case, accept the listed truthy
and falsy tokens, and answer `null` for a missing or unrecognized value. -/
def parseBool (v : Option String) : Option Bool :=
  match v with
  | none => none
  | some s =>
    let t := jsToLower (jsTrim s)
    if ["1", "true", "t", "yes", "y"].contains t then some true
    else if ["0", "false", "f", "no", "n"].contains t then some false
    else none

/-- `DELETE /api/procedimientos/:id`: parse the id (400), count appointments
whose line items reference it via `procedimientos.procedimiento_id`; when the
count is positive and `?force` is not truthy, answer 409 naming the count and
delete nothing; otherwise delete the procedure type (404 when absent). The
appointments themselves are never written. -/
def procedimientosDelete (st : ProcTypesState) (id : JsVal) (force : Option String) :
    ProcTypesState × ProcDelResp :=
  match oidMaybe id with
  | none => (st, .badId)
  | some oid =>
    let refs := st.citas.countP
      (fun c => c.procedimientos.any (fun p => p.procedimiento_id == some oid))
    if decide (0 < refs) && !(parseBool force == some true) then
      (st, .conflictRefs refs)
    else
      match st.procedimientos.find? (fun r => r.oid == oid) with
      | none => (st, .notFound)
      | some _ =>
        ({ st with procedimientos := st.procedimientos.eraseP (fun r => r.oid == oid) },
          .deleted 1)

/-! ## Claim theorems -/

/-- The two line items of the C1 scenario: `{cost 50, qty 2}` and
`{cost 30, qty 1}`. -/
def c1Items : List ProcRawIn :=
  [{ nombre := "Limpieza", costo_unitario := 50, cantidad := some 2 },
   { nombre := "Consulta", costo_unitario := 30, cantidad := some 1 }]

/-- A valid `POST /api/citas` body carrying the two line items and no
explicit total. -/
def c1Body : CitaCreateBody :=
  { fecha := 1735689600000
    paciente_id := "123"
    usuario_id := "aaaaaaaaaaaaaaaaaaaaaaaa"
    estado := none
    motivo := none
    procedimientos := some c1Items
    total := none }

/-- C1: creating an appointment with line items `{cost 50, qty 2}` and
`{cost 30, qty 1}` and no explicit total is claimed to store
`total = 130 = Σ costo_unitario × cantidad`. The code stores `total = 0`: the
Zod field `total: ….optional().default(0)` parses an absent total to `0`, so
the handler's `parsed.total ?? totalCalc` fallback to the computed sum — dead
code witnessing the intended recompute — is unreachable on the create path
(the PATCH path, whose `total` has no Zod default, does recompute). -/
theorem C1_create_total_zero :
    computeTotal (normalizeProcs c1Items) = 130 ∧
    (citasPost c1Body).map CitaDoc.total = some 0 := by
  exact ⟨by decide, by decide⟩

/-- C2: on a document array with no `null` slots, deleting a valid index `i`
via the blank-then-compact protocol yields exactly the array with the element
at `i` removed — length `n-1`, no `null` placeholders, and the relative order
of the other elements preserved — on both the clinical-history delete route
and the lab-order `producto_delete_index` branch. -/
theorem C2_delete_index_clean
    (h : HistoriaDoc) (i : Nat)
    (hh : ∀ y ∈ h.procedimientos_realizados, y.isSome)
    (hi : i < h.procedimientos_realizados.length)
    (d : OrdenLabDoc) (j : Nat) (x : PatchExtras)
    (hd : ∀ y ∈ d.productos, y.isSome)
    (hj : j < d.productos.length) :
    ((historiasDeleteIndex h i).1.procedimientos_realizados
        = h.procedimientos_realizados.eraseIdx i ∧
      (historiasDeleteIndex h i).1.procedimientos_realizados.length
        = h.procedimientos_realizados.length - 1 ∧
      (∀ y ∈ (historiasDeleteIndex h i).1.procedimientos_realizados, y.isSome) ∧
      (historiasDeleteIndex h i).2 = .ok true) ∧
    ((ordenProductoDeleteIndex d j x).1.productos = d.productos.eraseIdx j ∧
      (ordenProductoDeleteIndex d j x).1.productos.length = d.productos.length - 1 ∧
      (∀ y ∈ (ordenProductoDeleteIndex d j x).1.productos, y.isSome) ∧
      (ordenProductoDeleteIndex d j x).2 = .ok true) := by
  obtain ⟨a, ha⟩ := getD_isSome_of_lt h.procedimientos_realizados i hh hi
  have hhist : historiasDeleteIndex h i =
      ({ h with procedimientos_realizados :=
          deleteAtIndex h.procedimientos_realizados i }, .ok true) := by
    unfold historiasDeleteIndex
    rw [ha]
  have herase := deleteAtIndex_eq_eraseIdx h.procedimientos_realizados i hh hi
  have horden : (ordenProductoDeleteIndex d j x).1.productos
      = deleteAtIndex d.productos j := by
    unfold ordenProductoDeleteIndex
    simp only [applyEstadoObs_productos]
    rfl
  have herase2 := deleteAtIndex_eq_eraseIdx d.productos j hd hj
  refine ⟨⟨?_, ?_, ?_, ?_⟩, ⟨?_, ?_, ?_, ?_⟩⟩
  · rw [hhist]; exact herase
  · rw [hhist]
    simpa [herase] using length_eraseIdx_of_lt h.procedimientos_realizados i hi
  · rw [hhist]
    intro y hy
    rw [herase] at hy
    exact hh y (mem_of_mem_eraseIdx hy)
  · rw [hhist]
  · rw [horden]; exact herase2
  · rw [horden]
    simpa [herase2] using length_eraseIdx_of_lt d.productos j hj
  · rw [horden]
    intro y hy
    rw [herase2] at hy
    exact hd y (mem_of_mem_eraseIdx hy)
  · rfl

/-- A two-entry clinical history for the C2 witness. -/
def c2Historia : HistoriaDoc :=
  { paciente_id := "7"
    procedimientos_realizados :=
      [some { tratamiento := "Limpieza", fecha := 10, odontologo := none, resultado := none },
       some { tratamiento := "Resina", fecha := 20, odontologo := some "Eva", resultado := none }] }

/-- A two-product lab order for the C2 witness. -/
def c2Orden : OrdenLabDoc :=
  { estado := "Pendiente"
    observaciones := .onull
    productos :=
      [some { tipo_producto := "Corona", especificaciones := none, cantidad := 1 },
       some { tipo_producto := "Placa", especificaciones := some "metal", cantidad := 2 }] }

theorem C2_delete_index_clean_witness :
    (historiasDeleteIndex c2Historia 0).1.procedimientos_realizados
      = c2Historia.procedimientos_realizados.eraseIdx 0 ∧
    (ordenProductoDeleteIndex c2Orden 1 { estado := none, observaciones := none }).1.productos
      = c2Orden.productos.eraseIdx 1 := by
  have h := C2_delete_index_clean c2Historia 0 (by decide) (by decide)
    c2Orden 1 { estado := none, observaciones := none } (by decide) (by decide)
  exact ⟨h.1.1, h.2.1⟩

/-- C8: catalog seeding is idempotent — an empty role collection receives
exactly the four fixed role documents (fixed names, fixed descriptions, empty
permission lists), a non-empty collection receives no insert at all, and a
second run (on any store) changes nothing. -/
theorem C8_seed_idempotent :
    (∀ col : List RolSeed, col ≠ [] → ensureRolesSeed col = col) ∧
    ensureRolesSeed [] =
      [{ nombre := "Administrador", descripcion := "Gestión del sistema", permisos := [] },
       { nombre := "Odontologo", descripcion := "Atención clínica", permisos := [] },
       { nombre := "Asistente", descripcion := "Apoyo a operación", permisos := [] },
       { nombre := "Laboratorista", descripcion := "Laboratorio", permisos := [] }] ∧
    ∀ col : List RolSeed, ensureRolesSeed (ensureRolesSeed col) = ensureRolesSeed col := by
  refine ⟨?_, by decide, ?_⟩
  · intro col hne
    unfold ensureRolesSeed
    rw [if_pos]
    exact List.length_pos.mpr hne
  · intro col
    cases col with
    | nil => decide
    | cons a t =>
      unfold ensureRolesSeed
      simp

theorem C8_seed_idempotent_witness :
    ensureRolesSeed [{ nombre := "Administrador", descripcion := "x", permisos := [] }]
      = [{ nombre := "Administrador", descripcion := "x", permisos := [] }] :=
  C8_seed_idempotent.1 _ (by decide)

/-- C9: identifier resolution is total — the `try/catch` wrappers `oidMaybe`
and `normalizeRole`'s `parseOid` never throw — and both return a well-formed
handle exactly on inputs that parse as a generated identifier in the
fixed-length 24-hexadecimal form (an already-constructed handle passes
through), answering `null` on every other input. -/
theorem C9_oid_resolution_total :
    ∀ v : JsVal, (oidMaybe v).isSome = parsesAsGeneratedId v ∧
      (parseOid v).isSome = parsesAsGeneratedId v := by
  intro v
  cases v with
  | jstr s =>
    by_cases hh : isHex24 s <;>
      simp [oidMaybe, parseOid, objectIdCtor, parsesAsGeneratedId, hh]
  | jnum n => simp [oidMaybe, parseOid, objectIdCtor, parsesAsGeneratedId]
  | jbool b => simp [oidMaybe, parseOid, objectIdCtor, parsesAsGeneratedId]
  | jnull => simp [oidMaybe, parseOid, objectIdCtor, parsesAsGeneratedId]
  | jundefined => simp [oidMaybe, parseOid, objectIdCtor, parsesAsGeneratedId]
  | joid hex => simp [oidMaybe, parseOid, objectIdCtor, parsesAsGeneratedId]
  | jobj t => simp [oidMaybe, parseOid, objectIdCtor, parsesAsGeneratedId]

/-- C3: when a payload carries both role fields, the identifier wins —
whenever `rol_id` resolves in the catalog (to an entry with a usable name),
the output `rol` equals that entry's name; when `rol_id` does not resolve but
`rol` is in the closed enumeration and resolves, `rol_id` is filled from the
name lookup; and when the name also fails to resolve, the original `rol_id`
field is left untouched. -/
theorem C3_role_both_precedence (db : List RoleDoc) (p : Obj)
    (hrol : truthy (ogetV p "rol") = true)
    (hrid : truthy (ogetV p "rol_id") = true) :
    (∀ rid r, parseOid (ogetV p "rol_id") = some rid →
      findRoleById db rid = some r → r.nombre ≠ "" →
      oget (normalizeRole db p) "rol" = some (.jstr r.nombre)) ∧
    (∀ r, resolveById db (ogetV p "rol_id") = none →
      resolveByName db (ogetV p "rol") = some r →
      oget (normalizeRole db p) "rol_id" = some (.joid r.oid)) ∧
    (resolveById db (ogetV p "rol_id") = none →
      resolveByName db (ogetV p "rol") = none →
      oget (normalizeRole db p) "rol_id" = oget p "rol_id") := by
  have hb := normalizeRole_both db p hrol hrid
  have hfill : ∀ r, resolveByName db (ogetV p "rol") = some r →
      fillRolIdByName db p = oset p "rol_id" (.joid r.oid) := by
    intro r hname
    unfold fillRolIdByName
    cases hv : ogetV p "rol" with
    | jstr s =>
      rw [hv] at hname
      simp only [resolveByName] at hname
      dsimp only
      by_cases hc : ROLE_NAMES.contains s = true
      · rw [if_pos hc] at hname
        rw [if_pos hc, hname]
      · rw [if_neg hc] at hname
        exact absurd hname (by simp)
    | jnum n => rw [hv] at hname; simp [resolveByName] at hname
    | jbool b => rw [hv] at hname; simp [resolveByName] at hname
    | jnull => rw [hv] at hname; simp [resolveByName] at hname
    | jundefined => rw [hv] at hname; simp [resolveByName] at hname
    | joid hex => rw [hv] at hname; simp [resolveByName] at hname
    | jobj t => rw [hv] at hname; simp [resolveByName] at hname
  have hfillnone : resolveByName db (ogetV p "rol") = none →
      fillRolIdByName db p = p := by
    intro hname
    unfold fillRolIdByName
    cases hv : ogetV p "rol" with
    | jstr s =>
      rw [hv] at hname
      simp only [resolveByName] at hname
      dsimp only
      by_cases hc : ROLE_NAMES.contains s = true
      · rw [if_pos hc] at hname
        rw [if_pos hc, hname]
      · rw [if_neg hc]
    | jnum n => rfl
    | jbool b => rfl
    | jnull => rfl
    | jundefined => rfl
    | joid hex => rfl
    | jobj t => rfl
  refine ⟨?_, ?_, ?_⟩
  · intro rid r hpo hfind hne
    have hres : resolveById db (ogetV p "rol_id") = some r := by
      simp [resolveById, hpo, hfind]
    rw [hb, hres]
    dsimp only
    by_cases heq : JsVal.jstr r.nombre = ogetV p "rol"
    · have hcond : (r.nombre != "" && (JsVal.jstr r.nombre != ogetV p "rol")) = false := by
        simp [heq]
      rw [hcond, if_neg (by simp)]
      rw [oget_of_truthy p "rol" hrol, ← heq]
    · have hcond : (r.nombre != "" && (JsVal.jstr r.nombre != ogetV p "rol")) = true := by
        simp [bne_iff_ne, hne, heq]
      rw [hcond, if_pos rfl]
      exact oget_oset_same p "rol" _
  · intro r hres hname
    rw [hb, hres]
    dsimp only
    rw [hfill r hname]
    exact oget_oset_same p "rol_id" _
  · intro hres hname
    rw [hb, hres]
    dsimp only
    rw [hfillnone hname]

/-- The catalog of the C3 witness: one role whose identifier the payload
carries, with a name different from the payload's stale name. -/
def c3Db : List RoleDoc :=
  [{ oid := "bbbbbbbbbbbbbbbbbbbbbbbb", nombre := "Odontologo",
     descripcion := "Atención clínica", permisos := [] }]

/-- A payload carrying a stale name next to a resolving identifier. -/
def c3Payload : Obj :=
  [("nombres", .jstr "Eva"), ("rol", .jstr "Administrador"),
   ("rol_id", .jstr "bbbbbbbbbbbbbbbbbbbbbbbb")]

theorem C3_role_both_precedence_witness :
    oget (normalizeRole c3Db c3Payload) "rol" = some (.jstr "Odontologo") :=
  (C3_role_both_precedence c3Db c3Payload (by decide) (by decide)).1
    "bbbbbbbbbbbbbbbbbbbbbbbb"
    { oid := "bbbbbbbbbbbbbbbbbbbbbbbb", nombre := "Odontologo",
      descripcion := "Atención clínica", permisos := [] }
    (by decide) (by decide) (by decide)

theorem normalizeRole_shape (db : List RoleDoc) (p : Obj) :
    normalizeRole db p = p ∨
    (∃ v, normalizeRole db p = oset p "rol" v) ∨
    (∃ v, normalizeRole db p = oset p "rol_id" v) := by
  unfold normalizeRole fillRolIdByName
  repeat' split
  all_goals first
    | exact Or.inl rfl
    | exact Or.inr (Or.inl ⟨_, rfl⟩)
    | exact Or.inr (Or.inr ⟨_, rfl⟩)

/-- C10: `normalizeRole` only ever adds or rewrites the two role fields —
every field of the output other than `rol` and `rol_id` is present exactly
when it is present in the input and holds the same value, and no input field
is removed. -/
theorem C10_normalizeRole_frame (db : List RoleDoc) (p : Obj) (k : String)
    (h1 : k ≠ "rol") (h2 : k ≠ "rol_id") :
    oget (normalizeRole db p) k = oget p k := by
  rcases normalizeRole_shape db p with h | ⟨v, h⟩ | ⟨v, h⟩
  · rw [h]
  · rw [h]; exact oget_oset_other p "rol" k v h1
  · rw [h]; exact oget_oset_other p "rol_id" k v h2

theorem C10_normalizeRole_frame_witness :
    oget (normalizeRole c3Db c3Payload) "nombres" = some (.jstr "Eva") := by
  rw [C10_normalizeRole_frame c3Db c3Payload "nombres" (by decide) (by decide)]
  decide

/-- C4: a merge-patch at an index at or beyond the current array length never
mutates the document and answers 404 "Índice fuera de rango" before any
write, on both the lab-order `producto_patch` branch and the clinical-history
procedure patch. -/
theorem C4_patch_out_of_range
    (d : OrdenLabDoc) (i : Nat) (item : ProductoParcial) (x : PatchExtras)
    (h : HistoriaDoc) (j : Nat) (p : ProcPatchBody)
    (hi : d.productos.length ≤ i) (hj : h.procedimientos_realizados.length ≤ j) :
    ordenProductoPatch d i item x = (d, .err 404 "Índice fuera de rango") ∧
    historiasPatchIndex h j p = (h, .err 404 "Índice fuera de rango") := by
  constructor
  · unfold ordenProductoPatch
    rw [getD_none_of_le d.productos i hi]
  · unfold historiasPatchIndex
    rw [getD_none_of_le h.procedimientos_realizados j hj]

/-- A three-product lab order for the C4 witness. -/
def c4Orden : OrdenLabDoc :=
  { estado := "Pendiente"
    observaciones := .onull
    productos :=
      [some { tipo_producto := "Corona", especificaciones := none, cantidad := 1 },
       some { tipo_producto := "Placa", especificaciones := some "metal", cantidad := 2 },
       some { tipo_producto := "Retenedor", especificaciones := none, cantidad := 1 }] }

/-- A one-entry clinical history for the C4 witness. -/
def c4Historia : HistoriaDoc :=
  { paciente_id := "9"
    procedimientos_realizados :=
      [some { tratamiento := "Limpieza", fecha := 10, odontologo := none, resultado := none }] }

/-- The partial product of the C4 witness request. -/
def c4Item : ProductoParcial :=
  { tipo_producto := none, especificaciones := none, cantidad := some 3 }

/-- The procedure patch of the C4 witness request. -/
def c4ProcPatch : ProcPatchBody :=
  { tratamiento := some "Resina", fecha := none, odontologo := none, resultado := none }

/-- Empty piggyback fields. -/
def noExtras : PatchExtras := { estado := none, observaciones := none }

theorem C4_patch_out_of_range_witness :
    ordenProductoPatch c4Orden 5 c4Item noExtras
      = (c4Orden, .err 404 "Índice fuera de rango") ∧
    historiasPatchIndex c4Historia 4 c4ProcPatch
      = (c4Historia, .err 404 "Índice fuera de rango") :=
  C4_patch_out_of_range c4Orden 5 c4Item noExtras c4Historia 4 c4ProcPatch
    (by decide) (by decide)

/-- C7: a delete-at-index whose index is at or beyond the current array length
is, on the lab-order branch (which performs no element lookup), a no-op on
the array that still answers ok; and, on the clinical-history route (which
looks the current element up first), a 404 "Índice fuera de rango" with no
write. -/
theorem C7_delete_beyond_length
    (d : OrdenLabDoc) (i : Nat) (x : PatchExtras)
    (hd : ∀ y ∈ d.productos, y.isSome) (hi : d.productos.length ≤ i)
    (h : HistoriaDoc) (j : Nat) (hj : h.procedimientos_realizados.length ≤ j) :
    (ordenProductoDeleteIndex d i x).1.productos = d.productos ∧
    (ordenProductoDeleteIndex d i x).2 = .ok true ∧
    historiasDeleteIndex h j = (h, .err 404 "Índice fuera de rango") := by
  refine ⟨?_, rfl, ?_⟩
  · unfold ordenProductoDeleteIndex
    dsimp only
    rw [applyEstadoObs_productos]
    dsimp only
    rw [unsetAt, set_of_length_le d.productos i none hi]
    exact pullNones_of_all_isSome d.productos hd
  · unfold historiasDeleteIndex
    rw [getD_none_of_le h.procedimientos_realizados j hj]

theorem C7_delete_beyond_length_witness :
    (ordenProductoDeleteIndex c2Orden 7 { estado := none, observaciones := none }).1.productos
      = c2Orden.productos ∧
    historiasDeleteIndex c2Historia 9 = (c2Historia, .err 404 "Índice fuera de rango") := by
  have h := C7_delete_beyond_length c2Orden 7 { estado := none, observaciones := none }
    (by decide) (by decide) c2Historia 9 (by decide)
  exact ⟨h.1, h.2.2⟩

/-- The role of the C5 state. -/
def c5Oid : String := "cccccccccccccccccccccccc"

/-- A store in which a single user references the role in both stored forms
at once (`rol_id` and the denormalized `rol` name) — the normal shape
produced by `normalizeRole`. -/
def c5State : RolesState :=
  { roles := [{ oid := c5Oid, nombre := "Asistente", descripcion := "Apoyo", permisos := [] }]
    usuarios := [{ rol := some "Asistente", rol_id := some c5Oid }] }

/-- C5 counterexample: the role is referenced by exactly `N = 1` user, yet the
conflict reports `inUseBy` counts `byId = 1` and `byString = 1`, whose sum is
2 ≠ N — the claim that the reported counts always sum to the number of
referencing users fails when a user holds both reference forms (deletion is
still refused and the store unchanged, force flags notwithstanding). -/
theorem C5_counterexample_double_count :
    referencingUsers c5State.usuarios c5Oid "Asistente" = 1 ∧
    rolesDelete c5State (.jstr c5Oid) [("force", "1")] = (c5State, .conflict 1 1) ∧
    ¬(1 + 1 = 1) := by
  exact ⟨by decide, by decide, by decide⟩

/-- C5 (amended): deleting a role referenced by at least one user is always
refused — the store is left unchanged and the answer is the 409 conflict
carrying `byId` (users whose `rol_id` is the identifier) and `byString`
(users whose `rol` equals the role's name) — regardless of any query flags;
and `byId + byString` equals the number of referencing users plus the number
of users referencing in both forms at once, so the sum equals N exactly when
no referencing user holds both forms. -/
theorem C5_role_delete_always_refused (st : RolesState) (v : JsVal) (oid : String)
    (role : RoleDoc) (q : List (String × String))
    (hid : oidMaybe v = some oid)
    (hrole : st.roles.find? (fun r => r.oid == oid) = some role)
    (hN : 1 ≤ referencingUsers st.usuarios oid role.nombre) :
    rolesDelete st v q =
      (st, .conflict (st.usuarios.countP (fun u => u.rol_id == some oid))
        (st.usuarios.countP (fun u => u.rol == some role.nombre))) ∧
    st.usuarios.countP (fun u => u.rol_id == some oid)
        + st.usuarios.countP (fun u => u.rol == some role.nombre)
      = referencingUsers st.usuarios oid role.nombre
        + st.usuarios.countP (fun u => u.rol_id == some oid && u.rol == some role.nombre) := by
  have hsum := countP_or_add_countP_and st.usuarios
    (fun u => u.rol_id == some oid) (fun u => u.rol == some role.nombre)
  have href : referencingUsers st.usuarios oid role.nombre
      = st.usuarios.countP (fun u => u.rol_id == some oid || u.rol == some role.nombre) := rfl
  constructor
  · unfold rolesDelete
    rw [hid]
    dsimp only
    rw [hrole]
    dsimp only
    have hgt : 0 < st.usuarios.countP (fun u => u.rol_id == some oid)
        + st.usuarios.countP (fun u => u.rol == some role.nombre) := by
      rw [href] at hN
      omega
    rw [decide_eq_true hgt, if_pos rfl]
  · rw [href]
    omega

theorem C5_role_delete_always_refused_witness :
    rolesDelete c5State (.jstr c5Oid) [] = (c5State, .conflict 1 1) := by
  have h := C5_role_delete_always_refused c5State (.jstr c5Oid) c5Oid
    { oid := c5Oid, nombre := "Asistente", descripcion := "Apoyo", permisos := [] } []
    (by decide) (by decide) (by decide)
  exact h.1

/-- C6: deleting a procedure type referenced by at least one appointment line
item without a truthy `force` leaves the whole store — the procedure types
and the appointments — unchanged and answers 409 naming the number of
referencing appointments; with `force=1` the deletion proceeds and still
never writes the appointments. -/
theorem C6_procedimiento_delete_gate (st : ProcTypesState) (v : JsVal) (oid : String)
    (force : Option String) (pt : ProcTypeDoc)
    (hid : oidMaybe v = some oid)
    (hrefs : 1 ≤ st.citas.countP
      (fun c => c.procedimientos.any (fun q => q.procedimiento_id == some oid)))
    (hforce : parseBool force ≠ some true)
    (hfind : st.procedimientos.find? (fun r => r.oid == oid) = some pt) :
    procedimientosDelete st v force =
      (st, .conflictRefs (st.citas.countP
        (fun c => c.procedimientos.any (fun q => q.procedimiento_id == some oid)))) ∧
    (procedimientosDelete st v (some "1")).1.citas = st.citas ∧
    (procedimientosDelete st v (some "1")).1.procedimientos
      = st.procedimientos.eraseP (fun r => r.oid == oid) ∧
    (procedimientosDelete st v (some "1")).2 = .deleted 1 := by
  have hone : parseBool (some "1") = some true := by decide
  have hdel : procedimientosDelete st v (some "1") =
      ({ st with procedimientos := st.procedimientos.eraseP (fun r => r.oid == oid) },
        .deleted 1) := by
    unfold procedimientosDelete
    rw [hid]
    dsimp only
    rw [hone]
    have hc2 : (decide (0 < st.citas.countP
        (fun c => c.procedimientos.any (fun q => q.procedimiento_id == some oid)))
          && !((some true : Option Bool) == some true)) = false := by
      simp
    rw [hc2, if_neg (by simp), hfind]
  refine ⟨?_, ?_, ?_, ?_⟩
  · unfold procedimientosDelete
    rw [hid]
    dsimp only
    have hc1 : (decide (0 < st.citas.countP
        (fun c => c.procedimientos.any (fun q => q.procedimiento_id == some oid)))
          && !(parseBool force == some true)) = true := by
      have h2 : (parseBool force == some true) = false := by
        rw [beq_eq_false_iff_ne]
        exact hforce
      rw [h2]
      simp only [Bool.not_false, Bool.and_true, decide_eq_true_eq]
      omega
    rw [hc1, if_pos rfl]
  · rw [hdel]
  · rw [hdel]
  · rw [hdel]

/-- An appointment whose (legacy) line item references the procedure type of
the C6 witness. -/
def c6Oid : String := "dddddddddddddddddddddddd"

/-- The store of the C6 witness: one procedure type, one appointment
referencing it through a legacy line item. -/
def c6State : ProcTypesState :=
  { procedimientos :=
      [{ oid := c6Oid, tipo_procedimiento := "Limpieza", costo := 50, activo := true }]
    citas :=
      [{ fecha := 10
         paciente_id := "123"
         usuario_id := "aaaaaaaaaaaaaaaaaaaaaaaa"
         estado := "Pendiente"
         motivo := none
         procedimientos :=
           [{ procedimiento_id := some c6Oid, nombre := "Limpieza",
              costo_unitario := 50, cantidad := 1 }]
         total := 50 }] }

theorem C6_procedimiento_delete_gate_witness :
    procedimientosDelete c6State (.jstr c6Oid) none = (c6State, .conflictRefs 1) ∧
    (procedimientosDelete c6State (.jstr c6Oid) (some "1")).1.procedimientos = [] := by
  have h := C6_procedimiento_delete_gate c6State (.jstr c6Oid) c6Oid none
    { oid := c6Oid, tipo_procedimiento := "Limpieza", costo := 50, activo := true }
    (by decide) (by decide) (by decide) (by decide)
  refine ⟨h.1, ?_⟩
  rw [h.2.2.1]
  decide

end DentalFlow
